import Mathlib

/-!
Shallow embedding of `quayadmin/_impl.py` (jml/quay-admin), the Python 3
module that audits quay.io repository permissions.  Pure functions of the
source become Lean functions; fallible Python code (dict lookups, JSON
decoding, HTTP fetches) becomes `Except Err`; the in-place dict mutation of
`Permission.from_dict` and the laziness of Python 3 `map` iterators are made
explicit where a claim depends on them.  File I/O is abstracted to the JSON
value written to / parsed from the state file, and the HTTP transport to an
oracle giving each fetch's outcome.
-/

namespace QuayAdmin

/-- Failures surfaced by the embedded code.  `keyError k` models a Python
`KeyError`/missing-kwarg failure on key `k` (the realisation of the spec's
`ProtocolError` for schema mismatches); `typeError` models a `TypeError`
or a value of unexpected JSON shape; `transport`/`authError` model
HTTP-level failures of a fetch (the spec's `TransportError`/`AuthError`). -/
inductive Err where
  | keyError (key : String)
  | typeError (msg : String)
  | transport (msg : String)
  | authError (code : Nat)
deriving DecidableEq

/-- JSON values, as produced by `json.load` / consumed by `json.dump`.
Objects are association lists (Python dicts with string keys); the data
model of this program never uses JSON numbers. -/
inductive JValue where
  | null
  | bool (b : Bool)
  | str (s : String)
  | arr (elems : List JValue)
  | obj (fields : List (String × JValue))

/-- A JSON object body: a Python dict with string keys. -/
abbrev JDict := List (String × JValue)

/-- `d[k]` on a Python dict: the value at `k`, or a `KeyError`. -/
def getKey (d : JDict) (k : String) : Except Err JValue :=
  match d.lookup k with
  | some v => .ok v
  | none => .error (.keyError k)

/-- Expect a JSON object (a dict), as Python code that indexes into a value
implicitly does. -/
def asObj : JValue → Except Err JDict
  | .obj d => .ok d
  | _ => .error (.typeError "expected a JSON object")

/-- Expect a JSON array. -/
def asArr : JValue → Except Err (List JValue)
  | .arr xs => .ok xs
  | _ => .error (.typeError "expected a JSON array")

/-- Expect a JSON string (the spec types these fields as strings). -/
def asStr : JValue → Except Err String
  | .str s => .ok s
  | _ => .error (.typeError "expected a string")

/-- Expect a JSON boolean. -/
def asBool : JValue → Except Err Bool
  | .bool b => .ok b
  | _ => .error (.typeError "expected a boolean")

/-- Expect a nullable JSON string (`description` is a nullable string). -/
def asOptStr : JValue → Except Err (Option String)
  | .null => .ok none
  | .str s => .ok (some s)
  | _ => .error (.typeError "expected a string or null")

/-- `Avatar` (`_impl.py` lines 94-99): display metadata embedded in a
permission.  Attribute order: color, hash, kind, name. -/
structure Avatar where
  color : String
  hash : String
  kind : String
  name : String
deriving DecidableEq

/-- `Repository` (`_impl.py` lines 57-74).  The Python attribute
`namespace` is a Lean keyword, so the field is called `name_space` here.
Attribute order: namespace, name, kind, is_starred, is_public, description
(nullable). -/
structure Repository where
  name_space : String
  name : String
  kind : String
  is_starred : Bool
  is_public : Bool
  description : Option String
deriving DecidableEq

/-- `Repository.spec`: the canonical `namespace/name` identifier. -/
def Repository.spec (r : Repository) : String :=
  r.name_space ++ "/" ++ r.name

/-- `UserPermission` (`_impl.py` lines 116-120): base `Permission` fields
(avatar, name, role) plus `is_org_member` and `is_robot`. -/
structure UserPermission where
  avatar : Avatar
  name : String
  role : String
  is_org_member : Bool
  is_robot : Bool
deriving DecidableEq

/-- `TeamPermission` (`_impl.py` lines 123-125): just the base `Permission`
fields. -/
structure TeamPermission where
  avatar : Avatar
  name : String
  role : String
deriving DecidableEq

/-- `RepositoryPermissions` (`_impl.py` lines 128-142).  The permission
sequences are modelled by the lists of elements they yield (in the source
they may be Python 3 `map` iterators; see the `PySeq` model below for the
claims that depend on iterator consumption). -/
structure RepositoryPermissions where
  repository : Repository
  user_permissions : List UserPermission
  team_permissions : List TeamPermission
deriving DecidableEq

/-- `AllRepositoryPermissions` (`_impl.py` lines 145-174): the snapshot, an
ordered sequence of per-repository permission records. -/
structure AllRepositoryPermissions where
  repository_permissions : List RepositoryPermissions
deriving DecidableEq

/-! ## Decoding (`from_dict` classmethods) -/

/-- `Avatar(**avatar_data)`: keyword construction requires exactly the four
fields color, hash, kind, name (a missing or extra key is a `TypeError`). -/
def Avatar.fromDict (j : JValue) : Except Err Avatar := do
  let d ← asObj j
  if d.length = 4 then do
    let color ← asStr (← getKey d "color")
    let hash ← asStr (← getKey d "hash")
    let kind ← asStr (← getKey d "kind")
    let name ← asStr (← getKey d "name")
    return ⟨color, hash, kind, name⟩
  else
    .error (.typeError "unexpected keys for Avatar")

/-- `Repository.from_dict` / `Repository(**data)` (`_impl.py` lines 72-74):
keyword construction from exactly the six repository fields. -/
def Repository.fromDict (j : JValue) : Except Err Repository := do
  let d ← asObj j
  if d.length = 6 then do
    let ns ← asStr (← getKey d "namespace")
    let name ← asStr (← getKey d "name")
    let kind ← asStr (← getKey d "kind")
    let is_starred ← asBool (← getKey d "is_starred")
    let is_public ← asBool (← getKey d "is_public")
    let description ← asOptStr (← getKey d "description")
    return ⟨ns, name, kind, is_starred, is_public, description⟩
  else
    .error (.typeError "unexpected keys for Repository")

/-- `UserPermission.from_dict` = `Permission.from_dict` (`_impl.py` lines
109-113), with the dict mutation made explicit: `data.pop('avatar')`
removes the `avatar` binding from the caller's dict (a `KeyError` if
absent, leaving the dict unchanged), then `cls(avatar=avatar, **data)`
builds the permission from the remaining four fields.  Returns the result
together with the dict as the caller sees it afterwards. -/
def UserPermission.fromDictM (d : JDict) : Except Err UserPermission × JDict :=
  match d.lookup "avatar" with
  | none => (.error (.keyError "avatar"), d)
  | some av =>
    let d' := d.filter (fun kv => kv.1 ≠ "avatar")
    (do
      let avatar ← Avatar.fromDict av
      if d'.length = 4 then do
        let name ← asStr (← getKey d' "name")
        let role ← asStr (← getKey d' "role")
        let is_org_member ← asBool (← getKey d' "is_org_member")
        let is_robot ← asBool (← getKey d' "is_robot")
        return ⟨avatar, name, role, is_org_member, is_robot⟩
      else
        .error (.typeError "unexpected keys for UserPermission"), d')

/-- The value of `UserPermission.from_dict` on a JSON value. -/
def UserPermission.fromDict (j : JValue) : Except Err UserPermission :=
  (asObj j).bind (fun d => (UserPermission.fromDictM d).1)

/-- `TeamPermission.from_dict`, same pop-then-construct shape with the two
remaining fields name and role. -/
def TeamPermission.fromDictM (d : JDict) : Except Err TeamPermission × JDict :=
  match d.lookup "avatar" with
  | none => (.error (.keyError "avatar"), d)
  | some av =>
    let d' := d.filter (fun kv => kv.1 ≠ "avatar")
    (do
      let avatar ← Avatar.fromDict av
      if d'.length = 2 then do
        let name ← asStr (← getKey d' "name")
        let role ← asStr (← getKey d' "role")
        return ⟨avatar, name, role⟩
      else
        .error (.typeError "unexpected keys for TeamPermission"), d')

/-- The value of `TeamPermission.from_dict` on a JSON value. -/
def TeamPermission.fromDict (j : JValue) : Except Err TeamPermission :=
  (asObj j).bind (fun d => (TeamPermission.fromDictM d).1)

/-- A Python list comprehension `[f(x) for x in xs]` over fallible `f`:
evaluates left to right, the first raised error propagates. -/
def collectExcept (f : α → Except Err β) : List α → Except Err (List β)
  | [] => .ok []
  | x :: xs => do
    let y ← f x
    let ys ← collectExcept f xs
    return y :: ys

/-- `RepositoryPermissions.from_dict` (`_impl.py` lines 136-142): the three
top-level key lookups (`data['repository']`, `data['user_permissions']`,
`data['team_permissions']`) are eager dict indexing (a `KeyError` if
missing); element decoding is a Python 3 `map`, modelled here by the list
it denotes. -/
def RepositoryPermissions.fromDict (j : JValue) : Except Err RepositoryPermissions := do
  let d ← asObj j
  let repository ← Repository.fromDict (← getKey d "repository")
  let user_permissions ← collectExcept UserPermission.fromDict (← asArr (← getKey d "user_permissions"))
  let team_permissions ← collectExcept TeamPermission.fromDict (← asArr (← getKey d "team_permissions"))
  return ⟨repository, user_permissions, team_permissions⟩

/-- `AllRepositoryPermissions.from_json_file` (`_impl.py` lines 157-161),
applied to the JSON value parsed from the state file (`json.load`); a
non-array top level is a shape error. -/
def AllRepositoryPermissions.from_json_file (v : JValue) : Except Err AllRepositoryPermissions := do
  let raw_perms ← asArr v
  let perms ← collectExcept RepositoryPermissions.fromDict raw_perms
  return ⟨perms⟩

/-! ## Serialisation (`attr.asdict` / `to_json_file`) -/

/-- `attr.asdict` on an `Avatar`: fields in attribute order. -/
def Avatar.asdict (a : Avatar) : JValue :=
  .obj [("color", .str a.color), ("hash", .str a.hash),
        ("kind", .str a.kind), ("name", .str a.name)]

/-- `attr.asdict` on a `Repository`. -/
def Repository.asdict (r : Repository) : JValue :=
  .obj [("namespace", .str r.name_space), ("name", .str r.name),
        ("kind", .str r.kind), ("is_starred", .bool r.is_starred),
        ("is_public", .bool r.is_public),
        ("description", match r.description with
          | none => .null
          | some s => .str s)]

/-- `attr.asdict` on a `UserPermission`: inherited fields first. -/
def UserPermission.asdict (u : UserPermission) : JValue :=
  .obj [("avatar", u.avatar.asdict), ("name", .str u.name),
        ("role", .str u.role), ("is_org_member", .bool u.is_org_member),
        ("is_robot", .bool u.is_robot)]

/-- `attr.asdict` on a `TeamPermission`. -/
def TeamPermission.asdict (t : TeamPermission) : JValue :=
  .obj [("avatar", t.avatar.asdict), ("name", .str t.name),
        ("role", .str t.role)]

/-- `attr.asdict` on a `RepositoryPermissions` record (recursing into the
repository and both permission sequences). -/
def RepositoryPermissions.asdict (rp : RepositoryPermissions) : JValue :=
  .obj [("repository", rp.repository.asdict),
        ("user_permissions", .arr (rp.user_permissions.map UserPermission.asdict)),
        ("team_permissions", .arr (rp.team_permissions.map TeamPermission.asdict))]

/-- `AllRepositoryPermissions.to_json_file` (`_impl.py` lines 163-165): the
JSON value `json.dump` writes to the state file — one array element per
repository, in snapshot order. -/
def AllRepositoryPermissions.to_json_file (s : AllRepositoryPermissions) : JValue :=
  .arr (s.repository_permissions.map RepositoryPermissions.asdict)

/-! ## The external-access analyzer -/

/-- Python dict assignment `d[k] = v` on an insertion-ordered dict: update
the value in place if the key is present (keeping its original position),
otherwise append a new binding. -/
def dictInsert [BEq κ] (k : κ) (v : ν) (d : List (κ × ν)) : List (κ × ν) :=
  if d.any (fun kv => kv.1 == k) then
    d.map (fun kv => if kv.1 == k then (kv.1, v) else kv)
  else
    d ++ [(k, v)]

/-- `AllRepositoryPermissions.find_repos_with_external_users` (`_impl.py`
lines 167-174): walk the snapshot, keep each repository's user permissions
with `is_org_member` false (the source's local variable `external_users`,
inlined here), and record the repository in the insertion-ordered result
dict only when that list is non-empty. -/
def AllRepositoryPermissions.find_repos_with_external_users
    (s : AllRepositoryPermissions) : List (Repository × List UserPermission) :=
  s.repository_permissions.foldl
    (fun repos perm =>
      if (perm.user_permissions.filter (fun user => !user.is_org_member)).isEmpty then repos
      else dictInsert perm.repository
        (perm.user_permissions.filter (fun user => !user.is_org_member)) repos)
    []

/-! ## The registry client's request headers -/

/-- `Registry` (`_impl.py` lines 20-31): configuration of the client.  The
token is `None` or a string (`token = attr.ib(default=None)`). -/
structure Registry where
  endpoint : String
  token : Option String

/-- The headers `Registry._request` sends (`_impl.py` lines 26-31): the
caller-supplied headers if truthy else a fresh empty dict, with
`Authorization: Bearer <token>` assigned when `self.token` is truthy
(Python truthiness: `None` and the empty string are falsy).  All three
registry operations call `_request` with `headers=None`. -/
def Registry.request_headers (reg : Registry) (headers : Option (List (String × String))) :
    List (String × String) :=
  let hs := match headers with
    | none => []
    | some h => if h.isEmpty then [] else h
  match reg.token with
  | none => hs
  | some t => if t.isEmpty then hs else dictInsert "Authorization" ("Bearer " ++ t) hs

/-! ## The snapshot builder pipeline -/

/-- The outcomes of the three registry fetch operations, one entry per call
(`Registry.list_repositories`, `get_user_permissions`,
`get_team_permissions`, `_impl.py` lines 33-54).  Each operation is one
HTTP request plus response decoding inside the same Deferred; a fetch's
entry is `.error e` when that Deferred fails. -/
structure RegistryFetch where
  list_repositories : String → Except Err (List Repository)
  get_user_permissions : String → Except Err (List UserPermission)
  get_team_permissions : String → Except Err (List TeamPermission)

/-- `twisted.internet.defer.gatherResults` on a list of completed
Deferreds, abstracting completion time: all results in input order, or a
failure when any Deferred failed (the propagated failure is the first in
firing order; taking the first in list order is faithful whenever at most
one input fails, which is the situation the fail-fast claims quantify
over). -/
def gatherResults (ds : List (Except Err α)) : Except Err (List α) :=
  collectExcept id ds

/-- `get_repository_permissions` (`_impl.py` lines 77-91): gather the
concurrent user- and team-permission fetches for one repository; both must
succeed, and a failure of either is the failure of the whole call. -/
def get_repository_permissions (repository : Repository) (registry : RegistryFetch) :
    Except Err RepositoryPermissions := do
  let user_perms ← registry.get_user_permissions repository.spec
  let team_perms ← registry.get_team_permissions repository.spec
  return ⟨repository, user_perms, team_perms⟩

/-- `map_concurrently` (`_impl.py` lines 177-185): launch `f` on every
element and gather the results. -/
def map_concurrently (f : α → Except Err β) (xs : List α) : Except Err (List β) :=
  gatherResults (xs.map f)

/-- `AllRepositoryPermissions.from_registry` (`_impl.py` lines 150-155):
list the namespace's repositories, fan out the aggregator over them, and
wrap the gathered results as a snapshot. -/
def AllRepositoryPermissions.from_registry (registry : RegistryFetch) (ns : String) :
    Except Err AllRepositoryPermissions := do
  let repos ← registry.list_repositories ns
  let perms ← map_concurrently (fun r => get_repository_permissions r registry) repos
  return ⟨perms⟩

/-! ## The fan-in with an explicit completion schedule

`gatherResults` preallocates one result slot per Deferred and stores each
result at its input index when that Deferred fires, so the output order is
the input order however the completions interleave.  `gatherSchedRun`
makes the firing order an explicit argument: a list of input indices in
completion order. -/

/-- One Deferred firing: index `i`'s result arrives.  A success is stored
in slot `i`; a failure becomes the propagated error if none arrived yet. -/
def gatherStep (ds : List (Except Err α)) (acc : Option Err × List (Option α)) (i : Nat) :
    Option Err × List (Option α) :=
  match ds[i]? with
  | none => acc
  | some (.ok v) => (acc.1, acc.2.set i (some v))
  | some (.error e) =>
    (match acc.1 with
     | some e0 => some e0
     | none => some e, acc.2)

/-- Run the fan-in under completion schedule `order` (a list of input
indices in firing order), starting from empty slots. -/
def gatherSchedRun (ds : List (Except Err α)) (order : List Nat) :
    Option Err × List (Option α) :=
  order.foldl (gatherStep ds) (none, List.replicate ds.length none)

/-- Read the gathered Deferred off the final fan-in state: an error fires
the errback; otherwise the callback fires with the slots in index order
once every slot is filled (`none` = the gather is still pending). -/
def gatherSchedResult (st : Option Err × List (Option α)) : Option (Except Err (List α)) :=
  match st.1 with
  | some e => some (.error e)
  | none =>
    if st.2.all Option.isSome then some (.ok (st.2.filterMap id)) else none

/-- `AllRepositoryPermissions.from_registry` with the completion order of
the per-repository aggregations made explicit (`none` = still pending). -/
def from_registry_sched (registry : RegistryFetch) (ns : String) (order : List Nat) :
    Option (Except Err AllRepositoryPermissions) :=
  match registry.list_repositories ns with
  | .error e => some (.error e)
  | .ok repos =>
    (gatherSchedResult
      (gatherSchedRun (repos.map (fun r => get_repository_permissions r registry)) order)).map
      (Except.map AllRepositoryPermissions.mk)

/-! ## The main entry point's observable behaviour -/

/-- The line `main` prints for one external user (`_impl.py` lines
219-223): `'- %s [%s]%s'` with the robot suffix. -/
def format_user_line (u : UserPermission) : String :=
  "- " ++ u.name ++ " [" ++ u.role ++ "]" ++ (if u.is_robot then " (robot)" else "")

/-- The observable behaviour of `main` (`_impl.py` lines 204-230) on an
obtained snapshot: the lines printed for the external-access report (for
each offending repository: its spec, one line per external user, then a
blank line from the bare `print()`), and the process exit status
(`sys.exit(1)` when the report is non-empty, a normal exit otherwise). -/
def main_report (perms : AllRepositoryPermissions) : List String × Nat :=
  let external := perms.find_repos_with_external_users
  let lines := external.foldl
    (fun acc e => acc ++ [e.1.spec] ++ e.2.map format_user_line ++ [""]) []
  (lines, if external.isEmpty then 0 else 1)

/-! ## Python 3 `map` iterators

`RepositoryPermissions.from_dict` and the two permission fetches build
their sequences with `map(...)`, which in Python 3 is a one-shot iterator:
iterating it consumes it.  `PySeq` records whether a sequence is a
materialised list or such an iterator with its remaining elements. -/

/-- A sequence value as stored in a `RepositoryPermissions` attribute. -/
inductive PySeq (α : Type) where
  | materialized (xs : List α)
  | mapIter (remaining : List α)
deriving DecidableEq

/-- Iterating a sequence: the elements produced, and the sequence object as
it is left afterwards (a list is reusable, a `map` iterator is left
exhausted). -/
def PySeq.iterate : PySeq α → List α × PySeq α
  | .materialized xs => (xs, .materialized xs)
  | .mapIter xs => (xs, .mapIter [])

/-- A `RepositoryPermissions` record with its sequence attributes as the
Python objects they are (possibly one-shot iterators). -/
structure RepositoryPermissionsPy where
  repository : Repository
  user_permissions : PySeq UserPermission
  team_permissions : PySeq TeamPermission
deriving DecidableEq

/-- `from_json_file` at the Python-object level: the permission sequences
of every loaded record are `map` iterators (`_impl.py` lines 140-141), not
lists. -/
def from_json_file_py (v : JValue) : Except Err (List RepositoryPermissionsPy) :=
  (AllRepositoryPermissions.from_json_file v).map
    (fun s => s.repository_permissions.map
      (fun rp => ⟨rp.repository, .mapIter rp.user_permissions, .mapIter rp.team_permissions⟩))

/-- `find_repos_with_external_users` at the Python-object level: the list
comprehension iterates each record's `user_permissions`, consuming it when
it is a `map` iterator.  Returns the result dict and the snapshot's records
as they are left afterwards. -/
def find_external_py (entries : List RepositoryPermissionsPy) :
    List (Repository × List UserPermission) × List RepositoryPermissionsPy :=
  entries.foldl
    (fun acc perm =>
      let it := perm.user_permissions.iterate
      let external_users := it.1.filter (fun user => !user.is_org_member)
      let repos := if external_users.isEmpty then acc.1
        else dictInsert perm.repository external_users acc.1
      (repos, acc.2 ++ [⟨perm.repository, it.2, perm.team_permissions⟩]))
    ([], [])

/-! ## Concrete data used by the witnesses and counterexamples -/

/-- Display metadata used by the concrete examples. -/
def avatarOf (n : String) : Avatar := ⟨"#AA0000", "deadbeef", "user", n⟩

/-- The repository of the spec's worked external-access scenario. -/
def acmeApp : Repository := ⟨"acme", "app", "image", false, true, some "app images"⟩

/-- alice: an organisation member. -/
def alicePerm : UserPermission := ⟨avatarOf "alice", "alice", "admin", true, false⟩

/-- bob: an external (non-member) human user. -/
def bobPerm : UserPermission := ⟨avatarOf "bob", "bob", "write", false, false⟩

/-- ci-bot: an external robot account. -/
def ciBotPerm : UserPermission := ⟨avatarOf "ci-bot", "ci-bot", "read", false, true⟩

/-- The spec's scenario snapshot: one repository, users alice, bob, ci-bot. -/
def scenarioSnapshot : AllRepositoryPermissions :=
  ⟨[⟨acmeApp, [alicePerm, bobPerm, ciBotPerm], []⟩]⟩

/-- Repositories of the build-pipeline examples. -/
def repoAlpha : Repository := ⟨"acme", "alpha", "image", false, true, none⟩

def repoBeta : Repository := ⟨"acme", "beta", "image", false, false, none⟩

def repoGamma : Repository := ⟨"acme", "gamma", "image", false, true, none⟩

/-- The team-permission fetch failure of the fail-fast example. -/
def betaErr : Err := .transport "connection reset while fetching acme/beta"

/-- A registry in which every fetch succeeds except the team-permission
fetch of `acme/beta`. -/
def betaFailRegistry : RegistryFetch :=
  ⟨fun _ => .ok [repoAlpha, repoBeta, repoGamma],
   fun _ => .ok [bobPerm],
   fun s => if s = "acme/beta" then .error betaErr else .ok []⟩

/-- A registry in which every fetch succeeds except the user-permission
fetch of `acme/beta`. -/
def userFailRegistry : RegistryFetch :=
  ⟨fun _ => .ok [repoAlpha, repoBeta, repoGamma],
   fun s => if s = "acme/beta" then .error betaErr else .ok [bobPerm],
   fun _ => .ok []⟩

/-- A registry for the order-preservation example: every fetch succeeds. -/
def allOkRegistry : RegistryFetch :=
  ⟨fun _ => .ok [repoAlpha, repoBeta, repoGamma],
   fun _ => .ok [bobPerm],
   fun _ => .ok []⟩

/-- A state-file entry missing its `team_permissions` key. -/
def missingTeamsEntry : JValue :=
  .obj [("repository", .obj [("namespace", .str "acme"), ("name", .str "app"),
          ("kind", .str "image"), ("is_starred", .bool false), ("is_public", .bool true),
          ("description", .null)]),
        ("user_permissions", .arr [])]

/-- A snapshot with a single external, non-robot user bob on `acme/app`. -/
def bobOnlySnapshot : AllRepositoryPermissions := ⟨[⟨acmeApp, [bobPerm], []⟩]⟩

/-- Modelled from the spec: the exact per-user line claim C8 asserts is
printed, `"{name} [{role}]"` with the `" (robot)"` suffix when `is_robot`
— and nothing else on the line. -/
def claim_user_line (u : UserPermission) : String :=
  u.name ++ " [" ++ u.role ++ "]" ++ (if u.is_robot then " (robot)" else "")

/-- The avatar sub-dict of the permission-decoding examples. -/
def bobAvatarDict : JDict :=
  [("color", .str "#AA0000"), ("hash", .str "deadbeef"),
   ("kind", .str "user"), ("name", .str "bob")]

/-- A raw user-permission dict for bob, as fetched or loaded. -/
def bobUserDict : JDict :=
  [("avatar", .obj bobAvatarDict), ("name", .str "bob"), ("role", .str "write"),
   ("is_org_member", .bool false), ("is_robot", .bool false)]

/-- A one-entry state file whose repository `acme/app` has the single
external user bob. -/
def bobStateFile : JValue :=
  .arr [.obj [
    ("repository", .obj [("namespace", .str "acme"), ("name", .str "app"),
      ("kind", .str "image"), ("is_starred", .bool false), ("is_public", .bool true),
      ("description", .str "app images")]),
    ("user_permissions", .arr [.obj bobUserDict]),
    ("team_permissions", .arr [])]]

/-! ## Theorems -/

theorem collectExcept_map_ok {f : β → Except Err α} {g : α → β}
    (l : List α) (h : ∀ x ∈ l, f (g x) = .ok x) :
    collectExcept f (l.map g) = .ok l := by
  induction l with
  | nil => rfl
  | cons x xs ih =>
    simp only [List.map_cons, collectExcept, h x (by simp),
      ih (fun y hy => h y (by simp [hy]))]
    rfl

theorem avatar_roundtrip (a : Avatar) : Avatar.fromDict a.asdict = .ok a := by
  cases a; rfl

theorem repository_roundtrip (r : Repository) : Repository.fromDict r.asdict = .ok r := by
  cases r with
  | mk ns name kind st pub desc => cases desc <;> rfl

theorem user_permission_roundtrip (u : UserPermission) :
    UserPermission.fromDict u.asdict = .ok u := by
  cases u with
  | mk av name role iom irb => cases av; rfl

theorem team_permission_roundtrip (t : TeamPermission) :
    TeamPermission.fromDict t.asdict = .ok t := by
  cases t with
  | mk av name role => cases av; rfl

@[simp] theorem asArr_arr (xs : List JValue) : asArr (.arr xs) = .ok xs := rfl

@[simp] theorem asObj_obj (d : JDict) : asObj (.obj d) = .ok d := rfl

@[simp] theorem except_pure_eq_ok (a : α) : (pure a : Except Err α) = .ok a := rfl

theorem repository_permissions_roundtrip (rp : RepositoryPermissions) :
    RepositoryPermissions.fromDict rp.asdict = .ok rp := by
  cases rp with
  | mk repo us ts =>
    simp [RepositoryPermissions.fromDict, RepositoryPermissions.asdict, getKey,
      List.lookup, repository_roundtrip, Bind.bind, Except.bind,
      collectExcept_map_ok us (fun x _ => user_permission_roundtrip x),
      collectExcept_map_ok ts (fun x _ => team_permission_roundtrip x)]

theorem dictInsert_fresh [BEq κ] [LawfulBEq κ] (k : κ) (v : ν) (d : List (κ × ν))
    (h : ∀ kv ∈ d, kv.1 ≠ k) : dictInsert k v d = d ++ [(k, v)] := by
  have hany : d.any (fun kv => kv.1 == k) = false := by
    simp only [List.any_eq_false]
    intro kv hkv
    simpa using h kv hkv
  simp [dictInsert, hany]

theorem find_external_foldl (l : List RepositoryPermissions)
    (acc : List (Repository × List UserPermission))
    (hfresh : ∀ rp ∈ l, ∀ kv ∈ acc, kv.1 ≠ rp.repository)
    (hnodup : (l.map (fun rp => rp.repository)).Nodup) :
    l.foldl
      (fun repos perm =>
        if (perm.user_permissions.filter (fun user => !user.is_org_member)).isEmpty then repos
        else dictInsert perm.repository
          (perm.user_permissions.filter (fun user => !user.is_org_member)) repos)
      acc
    = acc ++ (l.filter
        (fun rp => !(rp.user_permissions.filter (fun user => !user.is_org_member)).isEmpty)).map
        (fun rp => (rp.repository, rp.user_permissions.filter (fun user => !user.is_org_member))) := by
  induction l generalizing acc with
  | nil => simp
  | cons p rest ih =>
    simp only [List.map_cons, List.nodup_cons] at hnodup
    simp only [List.foldl_cons]
    by_cases hep : (p.user_permissions.filter (fun user => !user.is_org_member)).isEmpty = true
    · rw [if_pos hep]
      rw [ih acc (fun rp hrp kv hkv => hfresh rp (by simp [hrp]) kv hkv) hnodup.2]
      simp [List.filter_cons, hep]
    · rw [if_neg hep]
      rw [dictInsert_fresh p.repository _ acc (fun kv hkv => hfresh p (by simp) kv hkv)]
      rw [ih (acc ++ [(p.repository, p.user_permissions.filter (fun user => !user.is_org_member))])
        ?fresh hnodup.2]
      · simp [List.filter_cons, hep]
      case fresh =>
        intro rp hrp kv hkv
        rcases List.mem_append.mp hkv with hold | hnew
        · exact hfresh rp (by simp [hrp]) kv hold
        · simp only [List.mem_singleton] at hnew
          subst hnew
          intro hcontra
          simp only [Prod.fst] at hcontra
          exact hnodup.1 (by rw [hcontra]; exact List.mem_map_of_mem _ hrp)

theorem find_strip_teams (l : List RepositoryPermissions)
    (acc : List (Repository × List UserPermission)) :
    (l.map (fun rp => RepositoryPermissions.mk rp.repository rp.user_permissions [])).foldl
      (fun repos perm =>
        if (perm.user_permissions.filter (fun user => !user.is_org_member)).isEmpty then repos
        else dictInsert perm.repository
          (perm.user_permissions.filter (fun user => !user.is_org_member)) repos)
      acc
    = l.foldl
      (fun repos perm =>
        if (perm.user_permissions.filter (fun user => !user.is_org_member)).isEmpty then repos
        else dictInsert perm.repository
          (perm.user_permissions.filter (fun user => !user.is_org_member)) repos)
      acc := by
  induction l generalizing acc with
  | nil => rfl
  | cons p rest ih =>
    simp only [List.map_cons, List.foldl_cons]
    exact ih _

/-- C1: on a snapshot whose entries concern pairwise distinct repositories,
`find_repos_with_external_users` is exactly the snapshot-ordered mapping
taking each repository with a non-empty list of non-member user permissions
to that filtered subsequence (repositories whose user permissions are all
org members, or empty, produce no entry), and team permissions never
contribute: erasing every team list leaves the result unchanged. -/
theorem claim_C1_find_external (s : AllRepositoryPermissions)
    (h : (s.repository_permissions.map (fun rp => rp.repository)).Nodup) :
    s.find_repos_with_external_users
      = (s.repository_permissions.filter
          (fun rp => !(rp.user_permissions.filter (fun user => !user.is_org_member)).isEmpty)).map
          (fun rp => (rp.repository, rp.user_permissions.filter (fun user => !user.is_org_member)))
    ∧ AllRepositoryPermissions.find_repos_with_external_users
        ⟨s.repository_permissions.map (fun rp => RepositoryPermissions.mk rp.repository rp.user_permissions [])⟩
      = s.find_repos_with_external_users := by
  constructor
  · have hfoldl := find_external_foldl s.repository_permissions [] (by simp) h
    simpa [AllRepositoryPermissions.find_repos_with_external_users] using hfoldl
  · exact find_strip_teams s.repository_permissions []

/-- C1 witness: the spec's §8 scenario — alice excluded, bob and ci-bot
reported for `acme/app`. -/
theorem claim_C1_witness :
    (scenarioSnapshot.repository_permissions.map (fun rp => rp.repository)).Nodup
    ∧ (scenarioSnapshot.find_repos_with_external_users
        = (scenarioSnapshot.repository_permissions.filter
            (fun rp => !(rp.user_permissions.filter (fun user => !user.is_org_member)).isEmpty)).map
            (fun rp => (rp.repository, rp.user_permissions.filter (fun user => !user.is_org_member)))
      ∧ AllRepositoryPermissions.find_repos_with_external_users
          ⟨scenarioSnapshot.repository_permissions.map
            (fun rp => RepositoryPermissions.mk rp.repository rp.user_permissions [])⟩
        = scenarioSnapshot.find_repos_with_external_users) :=
  ⟨by decide, claim_C1_find_external scenarioSnapshot (by decide)⟩

theorem collectExcept_id_map (f : α → Except Err β) (xs : List α) :
    collectExcept id (xs.map f) = collectExcept f xs := by
  induction xs with
  | nil => rfl
  | cons x rest ih => simp only [List.map_cons, collectExcept, id, ih]

theorem collectExcept_first_error (f : α → Except Err β) (l : List α) (e : Err)
    (h : ∀ x ∈ l, (∃ y, f x = .ok y) ∨ f x = .error e)
    (hx : ∃ x ∈ l, f x = .error e) :
    collectExcept f l = .error e := by
  induction l with
  | nil => simp at hx
  | cons x rest ih =>
    rcases h x (by simp) with ⟨y, hy⟩ | herr
    · have hrest : ∃ z ∈ rest, f z = .error e := by
        rcases hx with ⟨z, hz, hze⟩
        rcases List.mem_cons.mp hz with rfl | hzr
        · rw [hy] at hze
          exact absurd hze (by simp)
        · exact ⟨z, hzr, hze⟩
      simp only [collectExcept, hy, Bind.bind, Except.bind]
      rw [ih (fun z hz => h z (by simp [hz])) hrest]
    · simp only [collectExcept, herr, Bind.bind, Except.bind]

theorem collectExcept_ok_forall (f : α → Except Err β) (l : List α) (ys : List β)
    (h : collectExcept f l = .ok ys) : ∀ x ∈ l, ∃ y, f x = .ok y := by
  induction l generalizing ys with
  | nil => intro x hx; simp at hx
  | cons a rest ih =>
    intro x hx
    cases hfa : f a with
    | error e => rw [collectExcept, hfa] at h; exact absurd h (by simp [Bind.bind, Except.bind])
    | ok y =>
      rw [collectExcept, hfa] at h
      simp only [Bind.bind, Except.bind] at h
      cases hrest : collectExcept f rest with
      | error e => rw [hrest] at h; exact absurd h (by simp)
      | ok zs =>
        rcases List.mem_cons.mp hx with rfl | hxr
        · exact ⟨y, hfa⟩
        · exact ih zs hrest x hxr

/-- C3: if the user- or team-permission fetch for one repository B fails
while every other repository's fetches succeed, the whole build fails with
B's failure and no snapshot (and no partial record for B) is produced. -/
theorem claim_C3_fail_fast (registry : RegistryFetch) (ns : String)
    (repos : List Repository) (B : Repository) (e : Err)
    (hlist : registry.list_repositories ns = .ok repos)
    (hB : B ∈ repos)
    (hfail : registry.get_user_permissions B.spec = .error e
      ∨ ((∃ us, registry.get_user_permissions B.spec = .ok us)
        ∧ registry.get_team_permissions B.spec = .error e))
    (hok : ∀ r ∈ repos, r ≠ B →
      (∃ u, registry.get_user_permissions r.spec = .ok u)
      ∧ (∃ t, registry.get_team_permissions r.spec = .ok t)) :
    AllRepositoryPermissions.from_registry registry ns = .error e := by
  have hBerr : get_repository_permissions B registry = .error e := by
    rcases hfail with huser | ⟨⟨us, huser⟩, hteam⟩
    · simp [get_repository_permissions, huser, Bind.bind, Except.bind]
    · simp [get_repository_permissions, huser, hteam, Bind.bind, Except.bind]
  have hcoll : collectExcept (fun r => get_repository_permissions r registry) repos = .error e := by
    apply collectExcept_first_error
    · intro r hr
      by_cases hrB : r = B
      · subst hrB
        exact Or.inr hBerr
      · obtain ⟨⟨u, hu⟩, ⟨t, ht⟩⟩ := hok r hr hrB
        exact Or.inl ⟨⟨r, u, t⟩, by simp [get_repository_permissions, hu, ht, Bind.bind, Except.bind]⟩
    · exact ⟨B, hB, hBerr⟩
  simp [AllRepositoryPermissions.from_registry, hlist, map_concurrently, gatherResults,
    collectExcept_id_map, hcoll, Bind.bind, Except.bind]

/-- C3 witness: with repositories alpha, beta, gamma, the build is exactly
beta's failure both when only beta's team fetch fails and when only beta's
user fetch fails. -/
theorem claim_C3_witness :
    (betaFailRegistry.list_repositories "acme" = .ok [repoAlpha, repoBeta, repoGamma]
      ∧ repoBeta ∈ [repoAlpha, repoBeta, repoGamma]
      ∧ (betaFailRegistry.get_user_permissions repoBeta.spec = .error betaErr
        ∨ ((∃ us, betaFailRegistry.get_user_permissions repoBeta.spec = .ok us)
          ∧ betaFailRegistry.get_team_permissions repoBeta.spec = .error betaErr))
      ∧ (∀ r ∈ [repoAlpha, repoBeta, repoGamma], r ≠ repoBeta →
          (∃ u, betaFailRegistry.get_user_permissions r.spec = .ok u)
          ∧ (∃ t, betaFailRegistry.get_team_permissions r.spec = .ok t))
      ∧ AllRepositoryPermissions.from_registry betaFailRegistry "acme" = .error betaErr)
    ∧ (userFailRegistry.list_repositories "acme" = .ok [repoAlpha, repoBeta, repoGamma]
      ∧ repoBeta ∈ [repoAlpha, repoBeta, repoGamma]
      ∧ (userFailRegistry.get_user_permissions repoBeta.spec = .error betaErr
        ∨ ((∃ us, userFailRegistry.get_user_permissions repoBeta.spec = .ok us)
          ∧ userFailRegistry.get_team_permissions repoBeta.spec = .error betaErr))
      ∧ (∀ r ∈ [repoAlpha, repoBeta, repoGamma], r ≠ repoBeta →
          (∃ u, userFailRegistry.get_user_permissions r.spec = .ok u)
          ∧ (∃ t, userFailRegistry.get_team_permissions r.spec = .ok t))
      ∧ AllRepositoryPermissions.from_registry userFailRegistry "acme" = .error betaErr) := by
  have hokT : ∀ r ∈ [repoAlpha, repoBeta, repoGamma], r ≠ repoBeta →
      (∃ u, betaFailRegistry.get_user_permissions r.spec = .ok u)
      ∧ (∃ t, betaFailRegistry.get_team_permissions r.spec = .ok t) := by
    intro r hr hne
    simp only [List.mem_cons, List.mem_singleton] at hr
    rcases hr with rfl | rfl | (rfl | h)
    · exact ⟨⟨[bobPerm], rfl⟩, ⟨[], rfl⟩⟩
    · exact absurd rfl hne
    · exact ⟨⟨[bobPerm], rfl⟩, ⟨[], rfl⟩⟩
    · simp at h
  have hokU : ∀ r ∈ [repoAlpha, repoBeta, repoGamma], r ≠ repoBeta →
      (∃ u, userFailRegistry.get_user_permissions r.spec = .ok u)
      ∧ (∃ t, userFailRegistry.get_team_permissions r.spec = .ok t) := by
    intro r hr hne
    simp only [List.mem_cons, List.mem_singleton] at hr
    rcases hr with rfl | rfl | (rfl | h)
    · exact ⟨⟨[bobPerm], rfl⟩, ⟨[], rfl⟩⟩
    · exact absurd rfl hne
    · exact ⟨⟨[bobPerm], rfl⟩, ⟨[], rfl⟩⟩
    · simp at h
  have hfailT : betaFailRegistry.get_user_permissions repoBeta.spec = .error betaErr
      ∨ ((∃ us, betaFailRegistry.get_user_permissions repoBeta.spec = .ok us)
        ∧ betaFailRegistry.get_team_permissions repoBeta.spec = .error betaErr) :=
    Or.inr ⟨⟨[bobPerm], rfl⟩, rfl⟩
  have hfailU : userFailRegistry.get_user_permissions repoBeta.spec = .error betaErr
      ∨ ((∃ us, userFailRegistry.get_user_permissions repoBeta.spec = .ok us)
        ∧ userFailRegistry.get_team_permissions repoBeta.spec = .error betaErr) :=
    Or.inl rfl
  exact ⟨⟨rfl, by decide, hfailT, hokT,
      claim_C3_fail_fast betaFailRegistry "acme" [repoAlpha, repoBeta, repoGamma] repoBeta
        betaErr rfl (by decide) hfailT hokT⟩,
    ⟨rfl, by decide, hfailU, hokU,
      claim_C3_fail_fast userFailRegistry "acme" [repoAlpha, repoBeta, repoGamma] repoBeta
        betaErr rfl (by decide) hfailU hokU⟩⟩

theorem gatherStep_fst_ok (vs : List α) (acc : Option Err × List (Option α)) (i : Nat) :
    (gatherStep (vs.map Except.ok) acc i).1 = acc.1 := by
  unfold gatherStep
  rw [List.getElem?_map]
  cases vs[i]? with
  | none => rfl
  | some v => rfl

theorem gatherStep_snd_length (ds : List (Except Err α)) (acc : Option Err × List (Option α))
    (i : Nat) : (gatherStep ds acc i).2.length = acc.2.length := by
  unfold gatherStep
  cases ds[i]? with
  | none => rfl
  | some x => cases x with
    | ok v => simp
    | error e => rfl

theorem gatherFoldl_fst (vs : List α) (order : List Nat) (acc : Option Err × List (Option α)) :
    (order.foldl (gatherStep (vs.map Except.ok)) acc).1 = acc.1 := by
  induction order generalizing acc with
  | nil => rfl
  | cons i rest ih => rw [List.foldl_cons, ih, gatherStep_fst_ok]

theorem gatherFoldl_snd_length (ds : List (Except Err α)) (order : List Nat)
    (acc : Option Err × List (Option α)) :
    (order.foldl (gatherStep ds) acc).2.length = acc.2.length := by
  induction order generalizing acc with
  | nil => rfl
  | cons i rest ih => rw [List.foldl_cons, ih, gatherStep_snd_length]

theorem gatherFoldl_slot_not_mem (ds : List (Except Err α)) (order : List Nat)
    (acc : Option Err × List (Option α)) (j : Nat) (hj : j ∉ order) :
    (order.foldl (gatherStep ds) acc).2[j]? = acc.2[j]? := by
  induction order generalizing acc with
  | nil => rfl
  | cons i rest ih =>
    have hji : j ≠ i := fun h => hj (by simp [h])
    rw [List.foldl_cons, ih _ (fun h => hj (by simp [h]))]
    unfold gatherStep
    cases ds[i]? with
    | none => rfl
    | some x => cases x with
      | ok v => simp [List.getElem?_set_ne (Ne.symm hji)]
      | error e => rfl

theorem gatherFoldl_slot_mem (vs : List α) (order : List Nat)
    (acc : Option Err × List (Option α)) (hlen : acc.2.length = vs.length)
    (j : Nat) (hj : j < vs.length) (hmem : j ∈ order) :
    (order.foldl (gatherStep (vs.map Except.ok)) acc).2[j]? = some (some (vs.get ⟨j, hj⟩)) := by
  induction order generalizing acc with
  | nil => simp at hmem
  | cons i rest ih =>
    rw [List.foldl_cons]
    by_cases hjr : j ∈ rest
    · exact ih _ (by rw [gatherStep_snd_length]; exact hlen) hjr
    · have hij : j = i := by
        rcases List.mem_cons.mp hmem with h | h
        · exact h
        · exact absurd h hjr
      subst hij
      rw [gatherFoldl_slot_not_mem _ _ _ _ hjr]
      unfold gatherStep
      rw [List.getElem?_map, List.getElem?_eq_getElem hj]
      show (acc.2.set j (some (vs.get ⟨j, hj⟩)))[j]? = some (some (vs.get ⟨j, hj⟩))
      rw [List.getElem?_set_self (by rw [hlen]; exact hj)]

theorem gatherSchedRun_all_ok_fst (vs : List α) (order : List Nat) :
    (gatherSchedRun (vs.map Except.ok) order).1 = none := by
  unfold gatherSchedRun
  rw [gatherFoldl_fst]

theorem gatherSchedRun_all_ok_snd (vs : List α) (order : List Nat)
    (hcover : ∀ j, j < vs.length → j ∈ order) :
    (gatherSchedRun (vs.map Except.ok) order).2 = vs.map some := by
  unfold gatherSchedRun
  apply List.ext_getElem?
  intro n
  by_cases hn : n < vs.length
  · rw [gatherFoldl_slot_mem vs order _ (by simp) n hn (hcover n hn)]
    rw [List.getElem?_map, List.getElem?_eq_getElem hn]
    rfl
  · have hge : vs.length ≤ n := Nat.le_of_not_lt hn
    have h1 : (List.foldl (gatherStep (vs.map (Except.ok : α → Except Err α))) (none, List.replicate (vs.map (Except.ok : α → Except Err α)).length none) order).2.length = vs.length := by
      rw [gatherFoldl_snd_length]; simp
    rw [List.getElem?_eq_none (by rw [h1]; exact hge),
      List.getElem?_eq_none (by rw [List.length_map]; exact hge)]

theorem aggregate_ok_list (registry : RegistryFetch) (l : List Repository)
    (hok : ∀ r ∈ l, ∃ us ts, registry.get_user_permissions r.spec = .ok us
      ∧ registry.get_team_permissions r.spec = .ok ts) :
    ∃ vs : List RepositoryPermissions,
      l.map (fun r => get_repository_permissions r registry) = vs.map Except.ok
      ∧ vs.map (fun rp => rp.repository) = l := by
  induction l with
  | nil => exact ⟨[], rfl, rfl⟩
  | cons r rest ih =>
    obtain ⟨us, ts, hu, ht⟩ := hok r (by simp)
    obtain ⟨vs, hmap, hrepos⟩ := ih (fun x hx => hok x (by simp [hx]))
    refine ⟨⟨r, us, ts⟩ :: vs, ?_, ?_⟩
    · simp only [List.map_cons, hmap]
      congr 1
      simp [get_repository_permissions, hu, ht, Bind.bind, Except.bind]
    · simp [hrepos]

/-- C4: whatever the completion order of the concurrent per-repository
fetches (any schedule in which every launched aggregation eventually
completes), the built snapshot lists the `RepositoryPermissions` records in
exactly the order of the input repository list. -/
theorem claim_C4_order_preserved (registry : RegistryFetch) (ns : String)
    (repos : List Repository) (order : List Nat)
    (hlist : registry.list_repositories ns = .ok repos)
    (hok : ∀ r ∈ repos, ∃ us ts, registry.get_user_permissions r.spec = .ok us
      ∧ registry.get_team_permissions r.spec = .ok ts)
    (hcover : ∀ i, i < repos.length → i ∈ order) :
    ∃ perms, from_registry_sched registry ns order = some (.ok ⟨perms⟩)
      ∧ perms.map (fun rp => rp.repository) = repos := by
  obtain ⟨vs, hmap, hrepos⟩ := aggregate_ok_list registry repos hok
  refine ⟨vs, ?_, hrepos⟩
  have hlen : vs.length = repos.length := by
    rw [← hrepos, List.length_map]
  unfold from_registry_sched
  rw [hlist]
  show Option.map (Except.map AllRepositoryPermissions.mk)
      (gatherSchedResult
        (gatherSchedRun (repos.map (fun r => get_repository_permissions r registry)) order))
    = some (.ok ⟨vs⟩)
  rw [hmap]
  have hfst := gatherSchedRun_all_ok_fst vs order
  have hsnd := gatherSchedRun_all_ok_snd vs order (fun j hj => hcover j (by rw [← hlen]; exact hj))
  unfold gatherSchedResult
  rw [hfst, hsnd]
  have hall : (vs.map some).all Option.isSome = true := by
    simp [List.all_eq_true]
  rw [if_pos hall]
  have hfm : (vs.map some).filterMap id = vs := by
    rw [List.filterMap_map]
    simp
  rw [hfm]
  rfl

/-- C4 witness: with repositories alpha, beta, gamma and completion order
beta before alpha before gamma, the snapshot still lists alpha, beta,
gamma. -/
theorem claim_C4_witness :
    allOkRegistry.list_repositories "acme" = .ok [repoAlpha, repoBeta, repoGamma]
    ∧ (∀ r ∈ [repoAlpha, repoBeta, repoGamma], ∃ us ts,
        allOkRegistry.get_user_permissions r.spec = .ok us
        ∧ allOkRegistry.get_team_permissions r.spec = .ok ts)
    ∧ (∀ i, i < [repoAlpha, repoBeta, repoGamma].length → i ∈ [1, 0, 2])
    ∧ ∃ perms, from_registry_sched allOkRegistry "acme" [1, 0, 2] = some (.ok ⟨perms⟩)
        ∧ perms.map (fun rp => rp.repository) = [repoAlpha, repoBeta, repoGamma] := by
  have hok : ∀ r ∈ [repoAlpha, repoBeta, repoGamma], ∃ us ts,
      allOkRegistry.get_user_permissions r.spec = .ok us
      ∧ allOkRegistry.get_team_permissions r.spec = .ok ts :=
    fun r _ => ⟨[bobPerm], [], rfl, rfl⟩
  have hcover : ∀ i, i < [repoAlpha, repoBeta, repoGamma].length → i ∈ [1, 0, 2] := by decide
  exact ⟨rfl, hok, hcover,
    claim_C4_order_preserved allOkRegistry "acme" [repoAlpha, repoBeta, repoGamma] [1, 0, 2]
      rfl hok hcover⟩

theorem fromDict_ok_has_keys (j : JValue) (rp : RepositoryPermissions)
    (h : RepositoryPermissions.fromDict j = .ok rp) :
    ∃ d, j = .obj d ∧ (d.lookup "repository").isSome
      ∧ (d.lookup "user_permissions").isSome ∧ (d.lookup "team_permissions").isSome := by
  cases j with
  | null => simp [RepositoryPermissions.fromDict, asObj, Bind.bind, Except.bind] at h
  | bool b => simp [RepositoryPermissions.fromDict, asObj, Bind.bind, Except.bind] at h
  | str s => simp [RepositoryPermissions.fromDict, asObj, Bind.bind, Except.bind] at h
  | arr xs => simp [RepositoryPermissions.fromDict, asObj, Bind.bind, Except.bind] at h
  | obj d =>
    simp only [RepositoryPermissions.fromDict, asObj_obj, getKey, Bind.bind, Except.bind] at h
    cases h1 : d.lookup "repository" with
    | none => rw [h1] at h; simp at h
    | some vr =>
      rw [h1] at h
      dsimp only at h
      cases h2 : Repository.fromDict vr with
      | error e => rw [h2] at h; simp at h
      | ok repo =>
        rw [h2] at h
        dsimp only at h
        cases h3 : d.lookup "user_permissions" with
        | none => rw [h3] at h; simp at h
        | some vu =>
          rw [h3] at h
          dsimp only at h
          cases h4 : asArr vu with
          | error e => rw [h4] at h; simp at h
          | ok uarr =>
            rw [h4] at h
            dsimp only at h
            cases h5 : collectExcept UserPermission.fromDict uarr with
            | error e => rw [h5] at h; simp at h
            | ok us =>
              rw [h5] at h
              dsimp only at h
              cases h6 : d.lookup "team_permissions" with
              | none => rw [h6] at h; simp at h
              | some vt =>
                exact ⟨d, rfl, by simp [h1], by simp [h3], by simp [h6]⟩

/-- C5 helper: a successful load decodes every entry. -/
theorem from_json_file_ok_forall (arr : List JValue) (s : AllRepositoryPermissions)
    (h : AllRepositoryPermissions.from_json_file (.arr arr) = .ok s) :
    ∀ j ∈ arr, ∃ rp, RepositoryPermissions.fromDict j = .ok rp := by
  simp only [AllRepositoryPermissions.from_json_file, asArr_arr, Bind.bind, Except.bind] at h
  cases hc : collectExcept RepositoryPermissions.fromDict arr with
  | error e => rw [hc] at h; simp at h
  | ok perms => exact collectExcept_ok_forall _ _ _ hc

/-- C5: a persisted state file in which some entry lacks the
`team_permissions` key (or the `user_permissions` or `repository` key, or
is not an object at all) fails to load: `from_json_file` raises the schema
error instead of substituting an empty-list default, and returns no
snapshot. -/
theorem claim_C5_missing_key_fails (arr : List JValue) (j : JValue) (hmem : j ∈ arr)
    (hmiss : ∀ d, j = .obj d →
      d.lookup "team_permissions" = none ∨ d.lookup "user_permissions" = none
        ∨ d.lookup "repository" = none) :
    ∀ s, AllRepositoryPermissions.from_json_file (.arr arr) ≠ .ok s := by
  intro s h
  obtain ⟨rp, hrp⟩ := from_json_file_ok_forall arr s h j hmem
  obtain ⟨d, rfl, hk1, hk2, hk3⟩ := fromDict_ok_has_keys j rp hrp
  rcases hmiss d rfl with hnone | hnone | hnone
  · rw [hnone] at hk3; simp at hk3
  · rw [hnone] at hk2; simp at hk2
  · rw [hnone] at hk1; simp at hk1

/-- C5 witness: a one-entry file whose entry lacks `team_permissions` never
loads to a snapshot. -/
theorem claim_C5_witness :
    missingTeamsEntry ∈ [missingTeamsEntry]
    ∧ (∀ d, missingTeamsEntry = .obj d →
        d.lookup "team_permissions" = none ∨ d.lookup "user_permissions" = none
          ∨ d.lookup "repository" = none)
    ∧ ∀ s, AllRepositoryPermissions.from_json_file (.arr [missingTeamsEntry]) ≠ .ok s := by
  have hmiss : ∀ d, missingTeamsEntry = .obj d →
      d.lookup "team_permissions" = none ∨ d.lookup "user_permissions" = none
        ∨ d.lookup "repository" = none := by
    intro d hd
    cases hd
    exact Or.inl rfl
  exact ⟨List.mem_singleton.mpr rfl, hmiss,
    claim_C5_missing_key_fails [missingTeamsEntry] missingTeamsEntry
      (List.mem_singleton.mpr rfl) hmiss⟩

/-- C2: the save/load round trip is the identity — for every snapshot, the
JSON value `to_json_file` writes is loaded back by `from_json_file` into a
structurally equal snapshot: same repository order and same field values in
every `Repository`, `UserPermission`, `TeamPermission` and `Avatar`
(including 0-, 1- and N-entry snapshots and permission lists of any
length). -/
theorem claim_C2_roundtrip (s : AllRepositoryPermissions) :
    AllRepositoryPermissions.from_json_file s.to_json_file = .ok s := by
  cases s with
  | mk perms =>
    simp [AllRepositoryPermissions.from_json_file, AllRepositoryPermissions.to_json_file,
      Bind.bind, Except.bind,
      collectExcept_map_ok perms (fun x _ => repository_permissions_roundtrip x)]

/-- C6: a request issued with a configured (non-empty) bearer token carries
exactly the header `Authorization: Bearer <token>`, and a request issued
with no token configured carries no `Authorization` header at all. -/
theorem claim_C6_auth_header (endpoint t : String) (ht : t ≠ "") :
    ((Registry.mk endpoint (some t)).request_headers none).lookup "Authorization"
      = some ("Bearer " ++ t)
    ∧ ((Registry.mk endpoint none).request_headers none).lookup "Authorization" = none := by
  constructor
  · have hne : t.isEmpty = false := by
      rw [← Bool.not_eq_true]
      intro hempty
      exact ht ((String.isEmpty_iff t).mp hempty)
    simp [Registry.request_headers, hne, dictInsert]
  · rfl

/-- C6 witness: the header behaviour at a concrete token. -/
theorem claim_C6_witness :
    ("sekrit" : String) ≠ ""
    ∧ (((Registry.mk "https://quay.io/api/v1" (some "sekrit")).request_headers none).lookup
          "Authorization" = some ("Bearer " ++ "sekrit")
      ∧ ((Registry.mk "https://quay.io/api/v1" none).request_headers none).lookup
          "Authorization" = none) :=
  ⟨by decide, claim_C6_auth_header "https://quay.io/api/v1" "sekrit" (by decide)⟩

/-- C10: a configured empty-string token behaves exactly like no token:
`_request` tests the token's truthiness, so with `token = ""` the issued
headers are identical to the unauthenticated ones, whatever headers the
caller passed. -/
theorem claim_C10_empty_token (endpoint : String)
    (headers : Option (List (String × String))) :
    (Registry.mk endpoint (some "")).request_headers headers
      = (Registry.mk endpoint none).request_headers headers := rfl

theorem main_lines_foldl (l : List (Repository × List UserPermission)) (acc : List String) :
    l.foldl (fun acc e => acc ++ [e.1.spec] ++ e.2.map format_user_line ++ [""]) acc
      = acc ++ l.flatMap (fun e => e.1.spec :: (e.2.map format_user_line ++ [""])) := by
  induction l generalizing acc with
  | nil => simp
  | cons p rest ih =>
    rw [List.foldl_cons, ih]
    simp [List.flatMap_cons]

/-- C8 counterexample: on a snapshot whose report names external user bob,
the printed user line is `"- bob [write]"` — the claimed line
`"bob [write]"` is never printed (every user line carries the `"- "`
bullet, and a blank line follows each repository block). -/
theorem claim_C8_counterexample :
    (main_report bobOnlySnapshot).1 = ["acme/app", "- bob [write]", ""]
    ∧ claim_user_line bobPerm ∉ (main_report bobOnlySnapshot).1
    ∧ (main_report bobOnlySnapshot).2 = 1 := by decide

/-- C8 (amended): `main` prints, for each offending repository in report
order, the repository spec, then one line per external user of the form
`"- {name} [{role}]"` suffixed with `" (robot)"` exactly when `is_robot`,
then a blank line; it exits with status 0 exactly when no repository has
external users, and with the non-zero status 1 exactly when one does. -/
theorem claim_C8_main_behaviour (perms : AllRepositoryPermissions) :
    (main_report perms).1
      = perms.find_repos_with_external_users.flatMap
          (fun e => e.1.spec :: (e.2.map format_user_line ++ [""]))
    ∧ ((main_report perms).2 = 0 ↔ perms.find_repos_with_external_users = [])
    ∧ ((main_report perms).2 = 1 ↔ perms.find_repos_with_external_users ≠ []) := by
  refine ⟨?_, ?_, ?_⟩
  · show perms.find_repos_with_external_users.foldl
        (fun acc e => acc ++ [e.1.spec] ++ e.2.map format_user_line ++ [""]) []
      = _
    rw [main_lines_foldl, List.nil_append]
  · show (if perms.find_repos_with_external_users.isEmpty then 0 else 1) = 0
      ↔ perms.find_repos_with_external_users = []
    by_cases h : perms.find_repos_with_external_users = [] <;> simp [h, List.isEmpty_iff]
  · show (if perms.find_repos_with_external_users.isEmpty then 0 else 1) = 1
      ↔ perms.find_repos_with_external_users ≠ []
    by_cases h : perms.find_repos_with_external_users = [] <;> simp [h, List.isEmpty_iff]

theorem lookup_filter_ne (d : JDict) (k : String) :
    (d.filter (fun kv => kv.1 ≠ k)).lookup k = none := by
  induction d with
  | nil => rfl
  | cons kv rest ih =>
    obtain ⟨a, b⟩ := kv
    rw [List.filter_cons]
    by_cases hk : a = k
    · rw [if_neg (by simp [hk])]
      exact ih
    · rw [if_pos (by simp [hk])]
      rw [List.lookup_cons]
      have hbeq : (k == a) = false := by simp [Ne.symm hk]
      rw [hbeq]
      exact ih

/-- C9: `Permission.from_dict` pops the `avatar` key out of the dict it is
given: for any dict containing `avatar`, after a call (through
`UserPermission.from_dict` or `TeamPermission.from_dict`) the caller's dict
no longer has the key, and calling `from_dict` again on that dict fails
with the avatar `KeyError` instead of returning an equal permission. -/
theorem claim_C9_from_dict_mutates (d : JDict) (h : (d.lookup "avatar").isSome) :
    ((UserPermission.fromDictM d).2.lookup "avatar" = none
      ∧ UserPermission.fromDictM (UserPermission.fromDictM d).2
          = (.error (.keyError "avatar"), (UserPermission.fromDictM d).2))
    ∧ ((TeamPermission.fromDictM d).2.lookup "avatar" = none
      ∧ TeamPermission.fromDictM (TeamPermission.fromDictM d).2
          = (.error (.keyError "avatar"), (TeamPermission.fromDictM d).2)) := by
  obtain ⟨av, hav⟩ := Option.isSome_iff_exists.mp h
  have husnd : (UserPermission.fromDictM d).2 = d.filter (fun kv => kv.1 ≠ "avatar") := by
    unfold UserPermission.fromDictM
    rw [hav]
  have htsnd : (TeamPermission.fromDictM d).2 = d.filter (fun kv => kv.1 ≠ "avatar") := by
    unfold TeamPermission.fromDictM
    rw [hav]
  have hu2 : UserPermission.fromDictM (d.filter (fun kv => kv.1 ≠ "avatar"))
      = (.error (.keyError "avatar"), d.filter (fun kv => kv.1 ≠ "avatar")) := by
    unfold UserPermission.fromDictM
    rw [lookup_filter_ne]
  have ht2 : TeamPermission.fromDictM (d.filter (fun kv => kv.1 ≠ "avatar"))
      = (.error (.keyError "avatar"), d.filter (fun kv => kv.1 ≠ "avatar")) := by
    unfold TeamPermission.fromDictM
    rw [lookup_filter_ne]
  refine ⟨⟨?_, ?_⟩, ?_, ?_⟩
  · rw [husnd]; exact lookup_filter_ne d "avatar"
  · rw [husnd, hu2]
  · rw [htsnd]; exact lookup_filter_ne d "avatar"
  · rw [htsnd, ht2]

/-- C9 witness: the pop and the second-call failure at bob's dict. -/
theorem claim_C9_witness :
    (bobUserDict.lookup "avatar").isSome
    ∧ (((UserPermission.fromDictM bobUserDict).2.lookup "avatar" = none
        ∧ UserPermission.fromDictM (UserPermission.fromDictM bobUserDict).2
            = (.error (.keyError "avatar"), (UserPermission.fromDictM bobUserDict).2))
      ∧ ((TeamPermission.fromDictM bobUserDict).2.lookup "avatar" = none
        ∧ TeamPermission.fromDictM (TeamPermission.fromDictM bobUserDict).2
            = (.error (.keyError "avatar"), (TeamPermission.fromDictM bobUserDict).2))) :=
  ⟨rfl, claim_C9_from_dict_mutates bobUserDict rfl⟩

/-- C7: the analyzer is not pure on a loaded snapshot — because
`from_json_file` stores Python 3 `map` iterators, the first
`find_repos_with_external_users` call consumes each entry's
`user_permissions` and reports bob, while the second call on the very same
snapshot returns the empty mapping. -/
theorem claim_C7_iterator_consumed :
    (from_json_file_py bobStateFile).map
        (fun entries => ((find_external_py entries).1,
          (find_external_py (find_external_py entries).2).1))
      = .ok ([(acmeApp, [bobPerm])], []) := by
  rfl

end QuayAdmin
